import Mathlib

/-!
Verification of the mdrcp deployment tool (artifact discovery, destination
resolution, copy/failure aggregation, self-update protocol) against its
natural-language specification.

The Rust code of `src/lib.rs` and `src/cli/mod.rs` is shallowly embedded:
filesystem and process effects are abstracted into an explicit `Env` record of
pure functions (one run observes a fixed snapshot of the world), paths become a
structure of an absolute-flag plus components, and decoded TOML/JSON documents
become a `Val` tree.  Every definition mirrors the corresponding Rust item and
keeps its name where Lean allows it.
-/

set_option maxRecDepth 4096

/-- Model of `std::path::PathBuf`: an absolute-flag plus the list of
components.  `Path::join` with an absolute right-hand side replaces the
left-hand side, as in Rust. -/
structure FsPath where
  absolute : Bool
  comps : List String
deriving DecidableEq, Repr

/-- `Path::join` (Rust semantics: an absolute argument replaces the base). -/
def FsPath.join (p q : FsPath) : FsPath :=
  if q.absolute then q else ⟨p.absolute, p.comps ++ q.comps⟩

/-- Joining a single relative component (`p.join("name")` for a plain name). -/
def FsPath.join1 (p : FsPath) (c : String) : FsPath :=
  ⟨p.absolute, p.comps ++ [c]⟩

/-- `Path::file_name` for ordinary paths: the last component. -/
def FsPath.fileName (p : FsPath) : Option String :=
  p.comps.getLast?

/-- `Path::display`-style rendering, used in formatted error messages. -/
def FsPath.render (p : FsPath) : String :=
  (if p.absolute then "/" else "") ++ String.intercalate "/" p.comps

/-- Split a character list at every slash. -/
def splitSlashes : List Char → List (List Char)
  | [] => [[]]
  | c :: cs =>
    let r := splitSlashes cs
    if c = '/' then [] :: r
    else
      match r with
      | [] => [[c]]
      | h :: t => (c :: h) :: t

/-- `PathBuf::from` on a Unix-style string: absolute iff it starts with a
slash; empty components are dropped. -/
def FsPath.ofString (s : String) : FsPath :=
  ⟨(match s.data with | '/' :: _ => true | _ => false),
   ((splitSlashes s.data).map String.mk).filter (fun c => c ≠ "")⟩

/-- Decidable equality for run results (`Except` carries no instance of its
own in the ambient libraries). -/
instance {ε α : Type} [DecidableEq ε] [DecidableEq α] : DecidableEq (Except ε α) := fun x y =>
  match x, y with
  | .ok a, .ok b =>
    if h : a = b then .isTrue (congrArg Except.ok h)
    else .isFalse (fun hc => h (Except.ok.inj hc))
  | .error a, .error b =>
    if h : a = b then .isTrue (congrArg Except.error h)
    else .isFalse (fun hc => h (Except.error.inj hc))
  | .ok _, .error _ => .isFalse (fun hc => Except.noConfusion hc)
  | .error _, .ok _ => .isFalse (fun hc => Except.noConfusion hc)

/-- Decoded key-value document, standing in for both `toml::Value` and
`serde_json::Value` (only the shapes the program consumes). -/
inductive Val where
  | str (s : String)
  | num (n : Int)
  | bool (b : Bool)
  | arr (items : List Val)
  | table (entries : List (String × Val))

/-- `Value::get` on a table (first entry with the key, as in a decoded map). -/
def Val.get (v : Val) (k : String) : Option Val :=
  match v with
  | .table entries => entries.lookup k
  | _ => none

/-- `Value::as_str`. -/
def Val.as_str (v : Val) : Option String :=
  match v with
  | .str s => some s
  | _ => none

/-- `Value::as_array`. -/
def Val.as_array (v : Val) : Option (List Val) :=
  match v with
  | .arr items => some items
  | _ => none

/-- `BuildProfile` from `lib.rs`. -/
inductive BuildProfile where
  | Release
  | Debug
deriving DecidableEq, Repr

/-- `BuildProfile::artifact_dir`. -/
def BuildProfile.artifact_dir (p : BuildProfile) : String :=
  match p with
  | .Release => "release"
  | .Debug => "debug"

/-- `ProjectType` from `lib.rs`. -/
inductive ProjectType where
  | Standard
  | Tauri
deriving DecidableEq, Repr

/-- `SummaryFormat` from `lib.rs`. -/
inductive SummaryFormat where
  | Text
  | Json
  | JsonPretty
deriving DecidableEq, Repr

/-- `RunOptions` from `lib.rs` (defaults as in the `Default` derive). -/
structure RunOptions where
  target_override : Option FsPath := none
  quiet : Bool := false
  summary : SummaryFormat := .Text
  profile : BuildProfile := .Release
  project_type : Option ProjectType := none
deriving DecidableEq, Repr

/-- A `FailedCopy` entry of the summary: binary name plus formatted error. -/
structure FailedCopy where
  binary : String
  error : String
deriving DecidableEq, Repr

/-- The last character sequence before the final dot, with Rust's
`file_stem` convention that a single leading dot is not an extension
separator: the characters before the last `.` occurring after the head. -/
def beforeLastDot : List Char → Option (List Char)
  | [] => none
  | c :: cs =>
    match beforeLastDot cs with
    | some r => some (c :: r)
    | none => if c = '.' then some [] else none

/-- Stem of a file name (`Path::file_stem` on the file-name part). -/
def stemOfFileName (name : String) : String :=
  match name.toList with
  | [] => ""
  | c :: rest =>
    match beforeLastDot rest with
    | none => name
    | some before => String.mk (c :: before)

/-- `Path::new(path).file_stem()` for the ordinary relative source paths that
appear in `[[bin]].path` entries. -/
def fileStemOfString (s : String) : Option String :=
  match (s.splitOn "/").filter (fun c => c ≠ "") |>.getLast? with
  | none => none
  | some name => some (stemOfFileName name)

/-- Candidate name contributed by one `[[bin]]` entry (`lib.rs:229-240`):
the declared `name` if present, else the file stem of the declared `path`,
else nothing. -/
def binEntryName (b : Val) : Option String :=
  match (b.get "name").bind Val.as_str with
  | some name => some name
  | none =>
    match (b.get "path").bind Val.as_str with
    | some path => fileStemOfString path
    | none => none

/-- The names contributed by the `[[bin]]` array of a manifest. -/
def binDerivedNames (m : Val) : List String :=
  match (m.get "bin").bind Val.as_array with
  | none => []
  | some bins => bins.filterMap binEntryName

/-- `package.name` of a manifest. -/
def packageName (m : Val) : Option String :=
  ((m.get "package").bind (fun p => p.get "name")).bind Val.as_str

/-- `manifest_bin_names` (`lib.rs:227-252`): the bin-derived names, then the
package name appended unless some pushed name already equals it. -/
def manifest_bin_names (m : Val) : List String :=
  let names := binDerivedNames m
  match packageName m with
  | some name => if names.any (fun existing => existing == name) then names else names ++ [name]
  | none => names

/-- Name of the temporary updater file (`UPDATER_TEMP_NAME`). -/
def UPDATER_TEMP_NAME : String := "mdrcp_updater.exe"

/-- Name of the destination override environment variable
(`TARGET_OVERRIDE_ENV`). -/
def TARGET_OVERRIDE_ENV : String := "MD_TARGET_DIR"

/-- Snapshot of the world a single run observes: filesystem queries, decoders
for the external TOML/JSON libraries, environment variables, process
information and effect outcomes, all as pure functions.  The `windows` flag
selects between the two `cfg!(windows)` compilation variants. -/
structure Env where
  windows : Bool
  pathExists : FsPath → Bool
  isDir : FsPath → Bool
  readToString : FsPath → Option String
  tomlDecode : String → Option Val
  jsonDecode : String → Option Val
  envVarOs : String → Option String
  createDirAll : FsPath → Bool
  copyFile : FsPath → FsPath → Except String Unit
  canonicalize : FsPath → Option FsPath
  currentExe : Option FsPath
  tempDir : FsPath
  spawnUpdater : FsPath → FsPath → FsPath → Except String Unit

/-- `exe_filename`: appends `.exe` on the windows family, identity elsewhere. -/
def exe_filename (windows : Bool) (base : String) : String :=
  if windows then base ++ ".exe" else base

/-- The errors with which a run can abort, one constructor per `bail!` /
`context` site of `run_with_options` and its callees.  The source renders each
as an `anyhow` message; the payloads are the data interpolated there. -/
inductive RunErr where
  | noCargoTomlTauri (cargoPath : FsPath)
  | noCargoToml
  | readCargoFailed
  | parseCargoFailed
  | noPackagesOrBins
  | noBuiltExecutables (profile : BuildProfile) (ptype : ProjectType)
  | emptyOverrideVariable
  | homeNotSet
  | destinationCreateFailed (dir : FsPath)
  | destinationNotADirectory (dir : FsPath)
  | copyFailures (failed : List FailedCopy) (copied : Nat)
deriving DecidableEq, Repr

/-- `target_dir_override_from_env` (`lib.rs:315-326`): an absent variable is
no override, a set-but-empty variable is a hard error. -/
def target_dir_override_from_env (env : Env) : Except RunErr (Option FsPath) :=
  match env.envVarOs TARGET_OVERRIDE_ENV with
  | some raw =>
    if raw = "" then .error .emptyOverrideVariable
    else .ok (some (FsPath.ofString raw))
  | none => .ok none

/-- The fixed windows-family default destination, `c:\apps`. -/
def windowsAppsDir : FsPath := ⟨true, ["c:", "apps"]⟩

/-- `default_target_dir` (`lib.rs:328-344`), both `cfg` variants selected by
`env.windows`: environment override first, then the platform default
(`c:\apps`, or `$HOME/.local/bin` failing when `HOME` is absent). -/
def default_target_dir (env : Env) : Except RunErr FsPath :=
  match target_dir_override_from_env env with
  | .error e => .error e
  | .ok (some custom) => .ok custom
  | .ok none =>
    if env.windows then .ok windowsAppsDir
    else
      match env.envVarOs "HOME" with
      | none => .error .homeNotSet
      | some home => .ok (((FsPath.ofString home).join1 ".local").join1 "bin")

/-- The candidate-name set of `find_built_executables` (`lib.rs:264-297`):
root-manifest names, extra names, then names of every workspace member whose
manifest can be read and decoded — accumulated into a `HashSet`, modelled as
first-occurrence deduplication (the claims touch only membership and
emptiness, which are iteration-order independent). -/
def candidateNames (env : Env) (rust_base_dir : FsPath) (cargo_data : Val)
    (extra_names : List String) : List String :=
  let memberNames :=
    match ((cargo_data.get "workspace").bind (fun ws => ws.get "members")).bind Val.as_array with
    | none => []
    | some members =>
      members.flatMap fun member =>
        match member.as_str with
        | none => []
        | some member_path =>
          let member_manifest_path :=
            (rust_base_dir.join (FsPath.ofString member_path)).join1 "Cargo.toml"
          match env.readToString member_manifest_path with
          | none => []
          | some contents =>
            match env.tomlDecode contents with
            | none => []
            | some member_data => manifest_bin_names member_data
  (manifest_bin_names cargo_data ++ extra_names ++ memberNames).foldl
    (fun acc n => if acc.contains n then acc else acc ++ [n]) []

/-- `find_built_executables` (`lib.rs:257-312`): hard error when the candidate
set is empty, otherwise the candidates that have an existing platform-named
executable in the profile artifact directory. -/
def find_built_executables (env : Env) (rust_base_dir : FsPath) (cargo_data : Val)
    (profile : BuildProfile) (extra_names : List String) : Except RunErr (List String) :=
  let profile_dir := (rust_base_dir.join1 "target").join1 profile.artifact_dir
  let cands := candidateNames env rust_base_dir cargo_data extra_names
  if cands.isEmpty then .error .noPackagesOrBins
  else .ok (cands.filter fun base =>
    env.pathExists (profile_dir.join1 (exe_filename env.windows base)))

/-- `detect_project_type` (`lib.rs:424-434`). -/
def detect_project_type (env : Env) (project_dir : FsPath) : ProjectType :=
  let tauri_cargo := (project_dir.join1 "src-tauri").join1 "Cargo.toml"
  let tauri_conf := (project_dir.join1 "src-tauri").join1 "tauri.conf.json"
  let tauri_conf5 := (project_dir.join1 "src-tauri").join1 "tauri.conf.json5"
  if env.pathExists tauri_cargo && (env.pathExists tauri_conf || env.pathExists tauri_conf5) then
    .Tauri
  else
    .Standard

/-- Product name extracted from one Tauri configuration file: root-level
`productName`, else `package.productName`; unreadable or undecodable files
yield nothing. -/
def tauriNameFromConf (env : Env) (conf_path : FsPath) : Option String :=
  match env.readToString conf_path with
  | none => none
  | some contents =>
    match env.jsonDecode contents with
    | none => none
    | some json =>
      match (json.get "productName").bind Val.as_str with
      | some name => some name
      | none =>
        ((json.get "package").bind (fun p => p.get "productName")).bind Val.as_str

/-- `read_tauri_product_name` (`lib.rs:438-462`): first hit among
`tauri.conf.json` then `tauri.conf.json5`. -/
def read_tauri_product_name (env : Env) (project_dir : FsPath) : Option String :=
  match tauriNameFromConf env ((project_dir.join1 "src-tauri").join1 "tauri.conf.json") with
  | some name => some name
  | none => tauriNameFromConf env ((project_dir.join1 "src-tauri").join1 "tauri.conf.json5")

/-- The opening phase of `run_with_options` (`lib.rs:489-524`): project-type
selection, locating and decoding the root manifest, and collecting the extra
(Tauri product) names. -/
def resolveProject (env : Env) (project_dir : FsPath) (options : RunOptions) :
    Except RunErr (ProjectType × FsPath × Val × List String) :=
  let project_type :=
    match options.project_type with
    | some pt => pt
    | none => detect_project_type env project_dir
  let rust_base_dir :=
    if project_type = .Tauri then project_dir.join1 "src-tauri" else project_dir
  let cargo_path := rust_base_dir.join1 "Cargo.toml"
  if ¬ env.pathExists cargo_path then
    if project_type = .Tauri then .error (.noCargoTomlTauri cargo_path)
    else .error .noCargoToml
  else
    match env.readToString cargo_path with
    | none => .error .readCargoFailed
    | some cargo_contents =>
      match env.tomlDecode cargo_contents with
      | none => .error .parseCargoFailed
      | some cargo_data =>
        let extra_names :=
          if project_type = .Tauri then
            (read_tauri_product_name env project_dir).toList
          else []
        .ok (project_type, rust_base_dir, cargo_data, extra_names)

/-- Destination resolution of `run_with_options` (`lib.rs:546-563`): an
explicit override wins (absolute used verbatim, relative joined onto the
project directory, the computed default kept only for the redundancy note),
else the default chain; also returns the computed default when available. -/
def resolveTargetDir (env : Env) (project_dir : FsPath) (override_raw : Option FsPath) :
    Except RunErr (FsPath × Option FsPath) :=
  match override_raw with
  | some override_dir =>
    let default_target :=
      match default_target_dir env with
      | .ok default_dir => some default_dir
      | .error _ => none
    .ok ((if override_dir.absolute then override_dir else project_dir.join override_dir),
         default_target)
  | none =>
    match default_target_dir env with
    | .error e => .error e
    | .ok default_dir => .ok (default_dir, some default_dir)

/-- Destination preparation of `run_with_options` (`lib.rs:564-573`): create
the directory tree when absent, reject an existing non-directory. -/
def ensureTargetDir (env : Env) (target_dir : FsPath) : Except RunErr Unit :=
  if ¬ env.pathExists target_dir then
    if env.createDirAll target_dir then .ok ()
    else .error (.destinationCreateFailed target_dir)
  else if ¬ env.isDir target_dir then .error (.destinationNotADirectory target_dir)
  else .ok ()

/-- The current executable as resolved by `is_self_update_target` and
`try_self_update`: the injected test override when present, else the process
query (`std::env::current_exe`, which can fail). -/
def currentExeOf (env : Env) (current_exe_override : Option FsPath) : Option FsPath :=
  match current_exe_override with
  | some p => some p
  | none => env.currentExe

/-- `canonicalize().unwrap_or(p)`: the canonical form when it can be computed,
the path itself otherwise. -/
def canonicalOf (env : Env) (p : FsPath) : FsPath :=
  match env.canonicalize p with
  | some c => c
  | none => p

/-- `is_self_update_target` (`lib.rs:347-361`): an undeterminable current
executable means `false`, otherwise canonical-path equality. -/
def is_self_update_target (env : Env) (target_path : FsPath)
    (current_exe_override : Option FsPath) : Bool :=
  match currentExeOf env current_exe_override with
  | none => false
  | some current_exe => decide (canonicalOf env current_exe = canonicalOf env target_path)

/-- `SelfUpdateResult` from `lib.rs`. -/
inductive SelfUpdateResult where
  | NotApplicable
  | Spawned
  | Failed (msg : String)
deriving DecidableEq, Repr

/-- `try_self_update` (`lib.rs:375-420`): `NotApplicable` when the current
executable cannot be determined or its canonical form differs from the
target's; otherwise copy self to the temp updater path (failure is reported),
then spawn it with the `--finish-update` instruction (failure is reported). -/
def try_self_update (env : Env) (source_path target_path : FsPath)
    (current_exe_override : Option FsPath) : SelfUpdateResult :=
  match currentExeOf env current_exe_override with
  | none => .NotApplicable
  | some current_exe =>
    let current_exe_canonical := canonicalOf env current_exe
    let target_canonical := canonicalOf env target_path
    if current_exe_canonical ≠ target_canonical then .NotApplicable
    else
      let updater_path := env.tempDir.join1 UPDATER_TEMP_NAME
      match env.copyFile current_exe_canonical updater_path with
      | .error e => .Failed ("Failed to copy self to temp: " ++ e)
      | .ok _ =>
        match env.spawnUpdater updater_path source_path target_path with
        | .ok _ => .Spawned
        | .error e => .Failed ("Failed to spawn updater: " ++ e)

/-- Mutable state of the copy loop of `run_with_options` (`lib.rs:587-591`). -/
structure CopyState where
  copiedCount : Nat := 0
  copiedBinaries : List String := []
  failedBinaries : List FailedCopy := []
  pending : Option (FsPath × FsPath) := none
deriving DecidableEq, Repr

/-- The formatted per-artifact copy error (`lib.rs:633-638`). -/
def copyErrMsg (source_path target_path : FsPath) (e : String) : String :=
  "Failed to copy " ++ source_path.render ++ " to " ++ target_path.render ++ ": " ++ e

/-- The formatted self-update failure (`lib.rs:679-684`). -/
def selfUpdateErrMsg (source_path target_path : FsPath) (msg : String) : String :=
  "Failed to self-update " ++ source_path.render ++ " to " ++ target_path.render ++ ": " ++ msg

/-- The failure recorded when `try_self_update` answers `NotApplicable`
(`lib.rs:700-705`). -/
def fileInUseMsg (source_path target_path : FsPath) : String :=
  "Failed to copy " ++ source_path.render ++ " to " ++ target_path.render ++ ": file in use"

/-- The failure recorded when the deferral is skipped because other copies
failed (`lib.rs:722-725`). -/
def skippedMsg : String := "Self-update skipped due to other failures"

/-- One iteration of the copy loop (`lib.rs:595-654`): a self-update target is
deferred (recorded in `pending`, not copied), otherwise the copy's success
extends the copied data and its failure extends the failure list. -/
def copyStep (env : Env) (current_exe_override : Option FsPath)
    (source_dir target_dir : FsPath) (st : CopyState) (package_name : String) : CopyState :=
  let exe_name := exe_filename env.windows package_name
  let source_path := source_dir.join1 exe_name
  let target_path := target_dir.join1 exe_name
  if is_self_update_target env target_path current_exe_override then
    { st with pending := some (source_path, target_path) }
  else
    match env.copyFile source_path target_path with
    | .ok _ =>
      { st with copiedCount := st.copiedCount + 1,
                copiedBinaries := st.copiedBinaries ++ [exe_name] }
    | .error e =>
      { st with failedBinaries :=
          st.failedBinaries ++ [⟨exe_name, copyErrMsg source_path target_path e⟩] }

/-- The whole copy loop: `copyStep` folded over the built executables in
iteration order. -/
def copyLoop (env : Env) (current_exe_override : Option FsPath)
    (source_dir target_dir : FsPath) (names : List String) (st : CopyState) : CopyState :=
  names.foldl (copyStep env current_exe_override source_dir target_dir) st

/-- The post-loop deferral handling (`lib.rs:657-727`).  Returns the updated
state and whether the run returns success early because the updater was
spawned.  With other failures present the deferral is recorded as a failure
and no self-update is attempted; with none, `try_self_update` decides. -/
def handlePending (env : Env) (current_exe_override : Option FsPath)
    (st : CopyState) : CopyState × Bool :=
  match st.pending with
  | none => (st, false)
  | some (source_path, target_path) =>
    let exe_name :=
      match target_path.fileName with
      | some s => s
      | none => "unknown"
    if st.failedBinaries.isEmpty then
      match try_self_update env source_path target_path current_exe_override with
      | .Spawned => (st, true)
      | .Failed msg =>
        ({ st with failedBinaries :=
            st.failedBinaries ++ [⟨exe_name, selfUpdateErrMsg source_path target_path msg⟩] },
         false)
      | .NotApplicable =>
        ({ st with failedBinaries :=
            st.failedBinaries ++ [⟨exe_name, fileInUseMsg source_path target_path⟩] },
         false)
    else
      ({ st with failedBinaries := st.failedBinaries ++ [⟨exe_name, skippedMsg⟩] }, false)

/-- The summary status tag (`lib.rs:779-785`): `ok` with no failures,
`partial` when something was still copied, `failed` otherwise. -/
def statusOf (failed_binaries : List FailedCopy) (copied_count : Nat) : String :=
  if failed_binaries.isEmpty then "ok"
  else if copied_count > 0 then "partial"
  else "failed"

/-- `DeploymentSummary` from `lib.rs` (the structured JSON document). -/
structure DeploymentSummary where
  status : String
  copied_count : Nat
  target_dir : String
  override_used : Bool
  copied_binaries : List String
  failed_binaries : List FailedCopy
  warnings : List String
deriving DecidableEq, Repr

/-- The warning of `build_override_note` (`lib.rs:144-154`): emitted exactly
when an override was passed, the default could be computed, and the resolved
override equals it. -/
def overrideWarnings (override_raw : Option FsPath) (resolved : FsPath)
    (default_target : Option FsPath) : List String :=
  match override_raw, default_target with
  | some _, some default_dir =>
    if default_dir = resolved then
      ["Resolved target matches default destination; override may be redundant."]
    else []
  | _, _ => []

/-- Observable outcome of a successful run: the aggregated counters and lists,
the JSON summary when one was requested, and whether the run ended by spawning
the self-update helper. -/
structure RunOutcome where
  copiedCount : Nat
  copiedBinaries : List String
  failedBinaries : List FailedCopy
  targetDir : FsPath
  overrideUsed : Bool
  warnings : List String
  summary : Option DeploymentSummary
  selfUpdateSpawned : Bool
deriving DecidableEq, Repr

/-- The closing phase of `run_with_options` (`lib.rs:759-820`): the override
note's warnings, the JSON summary when requested, and the final aggregate
failure when any copy failed. -/
def finalizeRun (options : RunOptions) (target_dir : FsPath)
    (default_target : Option FsPath) (st : CopyState) : Except RunErr RunOutcome :=
  let warnings := overrideWarnings options.target_override target_dir default_target
  let produce_json :=
    match options.summary with
    | .Json => true
    | .JsonPretty => true
    | .Text => false
  let summary :=
    if produce_json then
      some { status := statusOf st.failedBinaries st.copiedCount,
             copied_count := st.copiedCount,
             target_dir := target_dir.render,
             override_used := options.target_override.isSome,
             copied_binaries := st.copiedBinaries,
             failed_binaries := st.failedBinaries,
             warnings := warnings }
    else none
  if st.failedBinaries.isEmpty then
    .ok { copiedCount := st.copiedCount,
          copiedBinaries := st.copiedBinaries,
          failedBinaries := st.failedBinaries,
          targetDir := target_dir,
          overrideUsed := options.target_override.isSome,
          warnings := warnings,
          summary := summary,
          selfUpdateSpawned := false }
  else .error (.copyFailures st.failedBinaries st.copiedCount)

/-- `run_with_options` (`lib.rs:483-821`), composed from the phases above.
`current_exe_override` is the `CliContext.current_exe` test injection.  On the
`Spawned` path the source returns `Ok(())` immediately; the outcome record
then reports the loop state as it stood. -/
def run_with_options (env : Env) (project_dir : FsPath) (options : RunOptions)
    (current_exe_override : Option FsPath) : Except RunErr RunOutcome :=
  match resolveProject env project_dir options with
  | .error e => .error e
  | .ok (project_type, rust_base_dir, cargo_data, extra_names) =>
    match find_built_executables env rust_base_dir cargo_data options.profile extra_names with
    | .error e => .error e
    | .ok built_executables =>
      if built_executables.isEmpty then
        .error (.noBuiltExecutables options.profile project_type)
      else
        match resolveTargetDir env project_dir options.target_override with
        | .error e => .error e
        | .ok (target_dir, default_target) =>
          match ensureTargetDir env target_dir with
          | .error e => .error e
          | .ok _ =>
            let source_dir := (rust_base_dir.join1 "target").join1 options.profile.artifact_dir
            let st :=
              copyLoop env current_exe_override source_dir target_dir built_executables {}
            let afterPending := handlePending env current_exe_override st
            if afterPending.2 then
              .ok { copiedCount := afterPending.1.copiedCount,
                    copiedBinaries := afterPending.1.copiedBinaries,
                    failedBinaries := afterPending.1.failedBinaries,
                    targetDir := target_dir,
                    overrideUsed := options.target_override.isSome,
                    warnings := [],
                    summary := none,
                    selfUpdateSpawned := true }
            else finalizeRun options target_dir default_target afterPending.1

/-- `do_main_with_options` (`lib.rs:175-220`): exit code 0 on success, 1 on
any error. -/
def do_main_with_options (env : Env) (project_dir : FsPath) (options : RunOptions)
    (current_exe_override : Option FsPath) : Nat :=
  match run_with_options env project_dir options current_exe_override with
  | .ok _ => 0
  | .error _ => 1

/-- `Command` from `cli/mod.rs:126-132`. -/
inductive Command where
  | Deploy (options : RunOptions)
  | ShowHelp
  | ShowVersion
  | FinishUpdate (source dest : FsPath)
deriving DecidableEq, Repr

/-- `ParseError` from `cli/mod.rs:134-145` (the allowed-values list of
`InvalidValue` is the fixed `SUMMARY_ALLOWED` constant). -/
inductive ParseError where
  | UnknownArgs (args : List String)
  | MissingValue (flag : String)
  | InvalidValue (flag value : String)
deriving DecidableEq, Repr

/-- `parse_summary_format` (`cli/mod.rs:242-249`). -/
def parse_summary_format (value : String) : Option SummaryFormat :=
  if value = "text" then some .Text
  else if value = "json" then some .Json
  else if value = "json-pretty" then some .JsonPretty
  else none

/-- The option-accumulating loop of `parse_args` (`cli/mod.rs:168-239`);
`orig` is the full argument list reported by `UnknownArgs`. -/
def parseLoop (orig : List String) (options : RunOptions) :
    List String → Except ParseError Command
  | [] => .ok (.Deploy options)
  | arg :: rest =>
    if arg = "-t" ∨ arg = "--target" then
      match rest with
      | [] => .error (.MissingValue arg)
      | value :: rest2 =>
        parseLoop orig { options with target_override := some (FsPath.ofString value) } rest2
    else if arg = "-q" ∨ arg = "--quiet" then
      parseLoop orig { options with quiet := true } rest
    else if arg = "--summary" then
      match rest with
      | [] => .error (.MissingValue arg)
      | value :: rest2 =>
        match parse_summary_format value with
        | some fmt => parseLoop orig { options with summary := fmt } rest2
        | none => .error (.InvalidValue arg value)
    else if arg.startsWith "--target=" then
      let value := arg.drop 9
      if value = "" then .error (.MissingValue "--target")
      else parseLoop orig { options with target_override := some (FsPath.ofString value) } rest
    else if arg.startsWith "--summary=" then
      let value := arg.drop 10
      if value = "" then .error (.MissingValue "--summary")
      else
        match parse_summary_format value with
        | some fmt => parseLoop orig { options with summary := fmt } rest
        | none => .error (.InvalidValue "--summary" value)
    else if arg = "--release" then
      parseLoop orig { options with profile := .Release } rest
    else if arg = "--debug" then
      parseLoop orig { options with profile := .Debug } rest
    else if arg = "--tauri" then
      parseLoop orig { options with project_type := some .Tauri } rest
    else if arg = "--no-tauri" then
      parseLoop orig { options with project_type := some .Standard } rest
    else .error (.UnknownArgs orig)

/-- `parse_args` (`cli/mod.rs:147-240`): empty means deploy with defaults, a
lone help/version flag short-circuits, the private three-argument
`--finish-update` instruction is recognized before the option loop. -/
def parse_args (args : List String) : Except ParseError Command :=
  match args with
  | [] => .ok (.Deploy {})
  | [a] =>
    if a = "-h" ∨ a = "--help" then .ok .ShowHelp
    else if a = "-V" ∨ a = "--version" then .ok .ShowVersion
    else parseLoop args {} args
  | [a, s, d] =>
    if a = "--finish-update" then .ok (.FinishUpdate (FsPath.ofString s) (FsPath.ofString d))
    else parseLoop args {} args
  | _ => parseLoop args {} args

/-- Modelled from the spec: the number of copy attempts of the finish-update
helper's bounded retry loop.  The helper executable's implementation is not
part of the sources here — only the CLI recognition of the private
instruction is — so the loop is reconstructed from §4.5 of the
specification, which fixes the attempt count without naming its value. -/
def finishUpdateAttempts : Nat := 10

/-- Modelled from the spec: the fixed delay, in milliseconds, between two
copy attempts of the finish-update helper. -/
def finishUpdateDelayMs : Nat := 500

/-- Modelled from the spec: the helper's bounded retry loop.  `copyAt i` is
the outcome of the i-th copy attempt from the real source to the real
destination; the loop stops at the first success and otherwise sleeps the
fixed delay and retries, making at most the given number of attempts.
Returns whether a copy succeeded together with the number of attempts made. -/
def retryCopyLoop (copyAt : Nat → Bool) : Nat → Nat → Bool × Nat
  | 0, _ => (false, 0)
  | remaining + 1, i =>
    if copyAt i then (true, 1)
    else
      let rec_result := retryCopyLoop copyAt remaining (i + 1)
      (rec_result.1, rec_result.2 + 1)

/-- Modelled from the spec: the finish-update helper's whole execution —
retry-copy `source` to `dest`, exit status 0 on success and 1 once all
retries are exhausted (the terminal failure is reported only through this
exit status; the parent has already exited). -/
def finishUpdateHelper (source dest : FsPath) (copyTry : FsPath → FsPath → Nat → Bool) : Nat :=
  if (retryCopyLoop (copyTry source dest) finishUpdateAttempts 0).1 then 0 else 1

/-- A fully inert environment: nothing exists, nothing succeeds.  Concrete
scenarios below override individual fields. -/
def baseEnv : Env where
  windows := false
  pathExists := fun _ => false
  isDir := fun _ => false
  readToString := fun _ => none
  tomlDecode := fun _ => none
  jsonDecode := fun _ => none
  envVarOs := fun _ => none
  createDirAll := fun _ => false
  copyFile := fun _ _ => .error "io"
  canonicalize := fun _ => none
  currentExe := none
  tempDir := ⟨true, ["tmp"]⟩
  spawnUpdater := fun _ _ _ => .error "spawn"

/-- The project directory of the concrete scenarios. -/
def demoProj : FsPath := ⟨true, ["proj"]⟩

/-- `<project>/Cargo.toml` of the concrete scenarios. -/
def demoCargoPath : FsPath := ⟨true, ["proj", "Cargo.toml"]⟩

/-- A manifest declaring only `package.name = "demo"`. -/
def demoManifest : Val := .table [("package", .table [("name", .str "demo")])]

/-- The release artifact of the `demo` package. -/
def demoExePath : FsPath := ⟨true, ["proj", "target", "release", "demo"]⟩

/-- The explicit absolute override destination of the success scenario. -/
def demoTargetDir : FsPath := ⟨true, ["opt", "bin"]⟩

/-- Options of the success scenario: explicit absolute `--target /opt/bin`. -/
def demoOptions : RunOptions := { target_override := some demoTargetDir }

/-- Environment of the success scenario: the manifest decodes to `demo`, its
release executable exists, the override destination is an existing directory,
and every copy succeeds. -/
def demoEnvOk : Env :=
  { baseEnv with
    pathExists := fun p => decide (p = demoCargoPath ∨ p = demoExePath ∨ p = demoTargetDir)
    isDir := fun p => decide (p = demoTargetDir)
    readToString := fun p => if p = demoCargoPath then some "CARGO" else none
    tomlDecode := fun s => if s = "CARGO" then some demoManifest else none
    copyFile := fun _ _ => .ok () }

/-- The outcome of the success scenario. -/
def demoOutcomeOk : RunOutcome :=
  { copiedCount := 1,
    copiedBinaries := ["demo"],
    failedBinaries := [],
    targetDir := demoTargetDir,
    overrideUsed := true,
    warnings := [],
    summary := none,
    selfUpdateSpawned := false }

/-- A manifest declaring two explicit bins `a` and `b` and no package name. -/
def demoManifestAB : Val :=
  .table [("bin", .arr [.table [("name", .str "a")], .table [("name", .str "b")]])]

/-- `$HOME/.local/bin` of the mixed-failure scenario. -/
def demoHomeBin : FsPath := ⟨true, ["home", "u", ".local", "bin"]⟩

/-- Release artifact of bin `a` in the mixed-failure scenario. -/
def demoExeA : FsPath := ⟨true, ["proj", "target", "release", "a"]⟩

/-- Release artifact of bin `b` in the mixed-failure scenario. -/
def demoExeB : FsPath := ⟨true, ["proj", "target", "release", "b"]⟩

/-- Environment of the mixed-failure scenario: two built bins, no override
(`HOME` supplies the default), every ordinary copy fails, and the running
executable sits at the destination of `b`, so `b` is deferred. -/
def demoEnvC1 : Env :=
  { baseEnv with
    pathExists := fun p =>
      decide (p = demoCargoPath ∨ p = demoExeA ∨ p = demoExeB ∨ p = demoHomeBin)
    isDir := fun p => decide (p = demoHomeBin)
    readToString := fun p => if p = demoCargoPath then some "CARGO2" else none
    tomlDecode := fun s => if s = "CARGO2" then some demoManifestAB else none
    envVarOs := fun k => if k = "HOME" then some "/home/u" else none
    copyFile := fun _ _ => .error "denied"
    canonicalize := fun p => some p
    currentExe := some (demoHomeBin.join1 "b") }

/-- A deferred-artifact state whose environment makes `try_self_update`
answer `NotApplicable` (the current executable cannot be determined). -/
def demoStateC2 : CopyState :=
  { pending := some (demoExeA, demoHomeBin.join1 "a") }

/-- Environment in which every canonicalization collapses to one fixed path,
so every artifact is classified as a self-update target. -/
def demoEnvC10 : Env :=
  { baseEnv with
    canonicalize := fun _ => some ⟨true, ["same"]⟩
    currentExe := some ⟨true, ["cur"]⟩ }

/-- Classification of one artifact in the copy loop: deferred because its
destination is the running executable. -/
def deferredHere (env : Env) (current_exe_override : Option FsPath)
    (target_dir : FsPath) (name : String) : Bool :=
  is_self_update_target env (target_dir.join1 (exe_filename env.windows name))
    current_exe_override

/-- Classification of one artifact in the copy loop: not deferred and its
byte copy succeeds. -/
def copiedHere (env : Env) (current_exe_override : Option FsPath)
    (source_dir target_dir : FsPath) (name : String) : Bool :=
  let exe_name := exe_filename env.windows name
  !deferredHere env current_exe_override target_dir name &&
    (match env.copyFile (source_dir.join1 exe_name) (target_dir.join1 exe_name) with
     | .ok _ => true
     | .error _ => false)

/-- Classification of one artifact in the copy loop: not deferred and its
byte copy fails. -/
def failedHere (env : Env) (current_exe_override : Option FsPath)
    (source_dir target_dir : FsPath) (name : String) : Bool :=
  let exe_name := exe_filename env.windows name
  !deferredHere env current_exe_override target_dir name &&
    (match env.copyFile (source_dir.join1 exe_name) (target_dir.join1 exe_name) with
     | .ok _ => false
     | .error _ => true)

/-- The failure entry an artifact contributes when its copy fails. -/
def failureEntryFor (env : Env) (source_dir target_dir : FsPath) (name : String) : FailedCopy :=
  let exe_name := exe_filename env.windows name
  match env.copyFile (source_dir.join1 exe_name) (target_dir.join1 exe_name) with
  | .error e =>
    ⟨exe_name, copyErrMsg (source_dir.join1 exe_name) (target_dir.join1 exe_name) e⟩
  | .ok _ => ⟨exe_name, ""⟩

/-- The (source, destination) pair a deferred artifact records. -/
def pendingPathsFor (env : Env) (source_dir target_dir : FsPath) (name : String) :
    FsPath × FsPath :=
  let exe_name := exe_filename env.windows name
  (source_dir.join1 exe_name, target_dir.join1 exe_name)

theorem copyLoop_nil (env : Env) (ce : Option FsPath) (sdir tdir : FsPath) (st : CopyState) :
    copyLoop env ce sdir tdir [] st = st := rfl

theorem copyLoop_cons (env : Env) (ce : Option FsPath) (sdir tdir : FsPath)
    (n : String) (ns : List String) (st : CopyState) :
    copyLoop env ce sdir tdir (n :: ns) st =
      copyLoop env ce sdir tdir ns (copyStep env ce sdir tdir st n) := rfl

/-- Full characterization of the copy loop: every artifact is attempted, the
copied and failed data extend by exactly the artifacts so classified, in
order, and each deferral overwrites the previous pending record. -/
theorem copyLoop_spec (env : Env) (ce : Option FsPath) (sdir tdir : FsPath) :
    ∀ (names : List String) (st : CopyState),
    (copyLoop env ce sdir tdir names st).copiedBinaries
        = st.copiedBinaries
          ++ (names.filter (copiedHere env ce sdir tdir)).map (exe_filename env.windows)
    ∧ (copyLoop env ce sdir tdir names st).copiedCount
        = st.copiedCount + (names.filter (copiedHere env ce sdir tdir)).length
    ∧ (copyLoop env ce sdir tdir names st).failedBinaries
        = st.failedBinaries
          ++ (names.filter (failedHere env ce sdir tdir)).map (failureEntryFor env sdir tdir)
    ∧ (copyLoop env ce sdir tdir names st).pending
        = ((names.filter (deferredHere env ce tdir)).map (pendingPathsFor env sdir tdir)).foldl
            (fun _ p => some p) st.pending := by
  intro names
  induction names with
  | nil => intro st; simp [copyLoop]
  | cons n ns ih =>
    intro st
    by_cases hdef : deferredHere env ce tdir n = true
    · have hcop : copiedHere env ce sdir tdir n = false := by
        simp [copiedHere, hdef]
      have hfail : failedHere env ce sdir tdir n = false := by
        simp [failedHere, hdef]
      have hstep : copyStep env ce sdir tdir st n =
          { st with pending := some (pendingPathsFor env sdir tdir n) } := by
        simp only [copyStep, pendingPathsFor]
        rw [if_pos (by simpa [deferredHere] using hdef)]
      rw [copyLoop_cons, hstep]
      rcases ih { st with pending := some (pendingPathsFor env sdir tdir n) } with
        ⟨h1, h2, h3, h4⟩
      refine ⟨?_, ?_, ?_, ?_⟩
      · simpa [List.filter_cons, hcop] using h1
      · simpa [List.filter_cons, hcop] using h2
      · simpa [List.filter_cons, hfail] using h3
      · simpa [List.filter_cons, hdef] using h4
    · have hdef' : deferredHere env ce tdir n = false := by
        simpa using hdef
      rcases hres : env.copyFile (sdir.join1 (exe_filename env.windows n))
          (tdir.join1 (exe_filename env.windows n)) with e | u
      · -- copy fails
        have hcop : copiedHere env ce sdir tdir n = false := by
          simp [copiedHere, hdef', hres]
        have hfail : failedHere env ce sdir tdir n = true := by
          simp [failedHere, hdef', hres]
        have hstep : copyStep env ce sdir tdir st n =
            { st with failedBinaries := st.failedBinaries ++ [failureEntryFor env sdir tdir n] } := by
          simp only [copyStep, failureEntryFor]
          rw [if_neg (by simpa [deferredHere] using hdef)]
          rw [hres]
        rw [copyLoop_cons, hstep]
        rcases ih { st with failedBinaries := st.failedBinaries ++ [failureEntryFor env sdir tdir n] } with
          ⟨h1, h2, h3, h4⟩
        refine ⟨?_, ?_, ?_, ?_⟩
        · simpa [List.filter_cons, hcop] using h1
        · simpa [List.filter_cons, hcop] using h2
        · simpa [List.filter_cons, hfail] using h3
        · simpa [List.filter_cons, hdef'] using h4
      · -- copy succeeds
        have hcop : copiedHere env ce sdir tdir n = true := by
          simp [copiedHere, hdef', hres]
        have hfail : failedHere env ce sdir tdir n = false := by
          simp [failedHere, hdef', hres]
        have hstep : copyStep env ce sdir tdir st n =
            { st with copiedCount := st.copiedCount + 1,
                      copiedBinaries := st.copiedBinaries ++ [exe_filename env.windows n] } := by
          simp only [copyStep]
          rw [if_neg (by simpa [deferredHere] using hdef)]
          rw [hres]
        rw [copyLoop_cons, hstep]
        rcases ih { st with copiedCount := st.copiedCount + 1,
                            copiedBinaries := st.copiedBinaries ++ [exe_filename env.windows n] } with
          ⟨h1, h2, h3, h4⟩
        refine ⟨?_, ?_, ?_, ?_⟩
        · simpa [List.filter_cons, hcop] using h1
        · simp only [List.filter_cons, hcop, if_pos, List.length_cons] at h2 ⊢
          rw [h2]
          omega
        · simpa [List.filter_cons, hfail] using h3
        · simpa [List.filter_cons, hdef'] using h4

theorem foldl_replace_getLast? {α : Type} (l : List α) (init : Option α) :
    l.foldl (fun _ x => some x) init =
      match l.getLast? with
      | some x => some x
      | none => init := by
  induction l generalizing init with
  | nil => rfl
  | cons a l ih =>
    rw [List.foldl_cons, ih (some a)]
    cases l with
    | nil => rfl
    | cons b l' =>
      rw [List.getLast?_cons_cons]
      rcases h : (b :: l').getLast? with _ | x
      · simp at h
      · rfl

theorem exe_filename_inj (w : Bool) {a b : String}
    (h : exe_filename w a = exe_filename w b) : a = b := by
  cases w with
  | false => simpa [exe_filename] using h
  | true =>
    simp only [exe_filename, if_pos] at h
    have hdata := congrArg String.data h
    simp only [String.data_append] at hdata
    exact String.ext (List.append_cancel_right hdata)

theorem failureEntryFor_binary (env : Env) (sdir tdir : FsPath) (name : String) :
    (failureEntryFor env sdir tdir name).binary = exe_filename env.windows name := by
  simp only [failureEntryFor]
  rcases env.copyFile (sdir.join1 (exe_filename env.windows name))
      (tdir.join1 (exe_filename env.windows name)) with e | u <;> rfl

/-- With a deferral pending and other failures present, the deferral is
recorded as a failure and nothing else happens (`lib.rs:712-726`). -/
theorem handlePending_skip (env : Env) (ce : Option FsPath) (st : CopyState)
    (s t : FsPath) (hp : st.pending = some (s, t)) (hf : st.failedBinaries ≠ []) :
    handlePending env ce st =
      ({ st with failedBinaries := st.failedBinaries ++
          [⟨(match t.fileName with | some x => x | none => "unknown"), skippedMsg⟩] },
       false) := by
  have hne : st.failedBinaries.isEmpty = false := by
    cases hmem : st.failedBinaries with
    | nil => exact absurd hmem hf
    | cons a l => rfl
  simp only [handlePending, hp, hne]
  rfl

/-- With a deferral pending, no other failures, and `try_self_update`
answering `NotApplicable`, the caller records a "file in use" failure
(`lib.rs:699-710`). -/
theorem handlePending_notApplicable (env : Env) (ce : Option FsPath) (st : CopyState)
    (s t : FsPath) (hp : st.pending = some (s, t)) (hf : st.failedBinaries = [])
    (hna : try_self_update env s t ce = .NotApplicable) :
    handlePending env ce st =
      ({ st with failedBinaries := st.failedBinaries ++
          [⟨(match t.fileName with | some x => x | none => "unknown"), fileInUseMsg s t⟩] },
       false) := by
  have hne : st.failedBinaries.isEmpty = true := by rw [hf]; rfl
  simp only [handlePending, hp, hne, hna]
  rfl

/-- C8: the copy engine attempts every resolved artifact regardless of
earlier outcomes — the copied names and counter grow by exactly the
artifacts whose copy succeeded, the failure list by exactly the structured
entries (name plus formatted error) of the artifacts whose copy failed, in
iteration order and with no early abort; an artifact whose canonicalized
destination equals the canonicalized running executable is recorded as
pending and is classified neither as copied nor as failed in the main loop. -/
theorem claim_C8_copy_loop_no_fail_fast :
    ∀ (env : Env) (ce : Option FsPath) (sdir tdir : FsPath)
      (names : List String) (st : CopyState),
    (copyLoop env ce sdir tdir names st).copiedBinaries
        = st.copiedBinaries
          ++ (names.filter (copiedHere env ce sdir tdir)).map (exe_filename env.windows)
    ∧ (copyLoop env ce sdir tdir names st).copiedCount
        = st.copiedCount + (names.filter (copiedHere env ce sdir tdir)).length
    ∧ (copyLoop env ce sdir tdir names st).failedBinaries
        = st.failedBinaries
          ++ (names.filter (failedHere env ce sdir tdir)).map (failureEntryFor env sdir tdir)
    ∧ (copyLoop env ce sdir tdir names st).pending
        = ((names.filter (deferredHere env ce tdir)).map (pendingPathsFor env sdir tdir)).foldl
            (fun _ p => some p) st.pending
    ∧ (∀ n : String, (copiedHere env ce sdir tdir n && deferredHere env ce tdir n) = false)
    ∧ (∀ n : String, (failedHere env ce sdir tdir n && deferredHere env ce tdir n) = false) := by
  intro env ce sdir tdir names st
  obtain ⟨h1, h2, h3, h4⟩ := copyLoop_spec env ce sdir tdir names st
  refine ⟨h1, h2, h3, h4, ?_, ?_⟩
  · intro n
    by_cases hdef : deferredHere env ce tdir n = true
    · simp [copiedHere, hdef]
    · simp [Bool.eq_false_iff.mpr hdef]
  · intro n
    by_cases hdef : deferredHere env ce tdir n = true
    · simp [failedHere, hdef]
    · simp [Bool.eq_false_iff.mpr hdef]

/-- C10: at most one deferred self-update is tracked per run — after the
main loop the pending record is exactly the one of the last-iterated
self-update target (none when there is none), and an artifact classified as
a self-update target contributes neither to the copied list nor to the
failure list of the loop. -/
theorem claim_C10_last_deferral_wins :
    ∀ (env : Env) (ce : Option FsPath) (sdir tdir : FsPath) (names : List String),
    ((copyLoop env ce sdir tdir names {}).pending
        = match (names.filter (deferredHere env ce tdir)).getLast? with
          | some m => some (pendingPathsFor env sdir tdir m)
          | none => none)
    ∧ ∀ n : String, n ∈ names → deferredHere env ce tdir n = true →
        exe_filename env.windows n ∉ (copyLoop env ce sdir tdir names {}).copiedBinaries
        ∧ ∀ fc ∈ (copyLoop env ce sdir tdir names {}).failedBinaries,
            fc.binary ≠ exe_filename env.windows n := by
  intro env ce sdir tdir names
  obtain ⟨h1, h2, h3, h4⟩ := copyLoop_spec env ce sdir tdir names {}
  constructor
  · rw [h4, foldl_replace_getLast?, List.getLast?_map]
    rcases (names.filter (deferredHere env ce tdir)).getLast? with _ | m <;> rfl
  · intro n hn hdefn
    constructor
    · intro hmem
      rw [h1] at hmem
      simp only [List.nil_append, List.mem_map] at hmem
      obtain ⟨m, hm, heq⟩ := hmem
      have hmn : m = n := exe_filename_inj env.windows heq
      subst hmn
      have := (List.mem_filter.mp hm).2
      simp [copiedHere, hdefn] at this
    · intro fc hfc heq
      rw [h3] at hfc
      simp only [List.nil_append, List.mem_map] at hfc
      obtain ⟨m, hm, hent⟩ := hfc
      have hbin : fc.binary = exe_filename env.windows m := by
        rw [← hent, failureEntryFor_binary]
      rw [hbin] at heq
      have hmn : m = n := exe_filename_inj env.windows heq
      subst hmn
      have := (List.mem_filter.mp hm).2
      simp [failedHere, hdefn] at this

theorem claim_C10_witness :
    (copyLoop demoEnvC10 none demoProj demoHomeBin ["a", "b"] {}).pending
        = some (demoProj.join1 "b", demoHomeBin.join1 "b")
    ∧ "a" ∉ (copyLoop demoEnvC10 none demoProj demoHomeBin ["a", "b"] {}).copiedBinaries
    ∧ ∀ fc ∈ (copyLoop demoEnvC10 none demoProj demoHomeBin ["a", "b"] {}).failedBinaries,
        fc.binary ≠ "a" := by
  have h := claim_C10_last_deferral_wins demoEnvC10 none demoProj demoHomeBin ["a", "b"]
  have h2 := h.2 "a" (by decide) (by decide)
  exact ⟨h.1.trans (by decide), h2.1, h2.2⟩

/-- C1: when at least one ordinary copy failed and an artifact was deferred,
the post-loop handling records the deferral as a failure with the
"skipped due to other failures" message and nothing else — the result holds
for every environment, so the self-update machinery (`try_self_update`) is
never consulted — and the whole run then aborts with the aggregate failure
containing that extra entry. -/
theorem claim_C1_skip_self_update_on_failures :
    (∀ (env : Env) (ce : Option FsPath) (st : CopyState) (s t : FsPath),
      st.pending = some (s, t) → st.failedBinaries ≠ [] →
      handlePending env ce st =
        ({ st with failedBinaries := st.failedBinaries ++
            [⟨(match t.fileName with | some x => x | none => "unknown"), skippedMsg⟩] },
         false))
    ∧ (∀ (env : Env) (project_dir : FsPath) (options : RunOptions) (ce : Option FsPath)
        (pt : ProjectType) (rb : FsPath) (cd : Val) (en : List String)
        (bes : List String) (td : FsPath) (dt : Option FsPath) (s t : FsPath),
      resolveProject env project_dir options = .ok (pt, rb, cd, en) →
      find_built_executables env rb cd options.profile en = .ok bes →
      bes.isEmpty = false →
      resolveTargetDir env project_dir options.target_override = .ok (td, dt) →
      ensureTargetDir env td = .ok () →
      (copyLoop env ce ((rb.join1 "target").join1 options.profile.artifact_dir) td bes {}).pending
          = some (s, t) →
      (copyLoop env ce ((rb.join1 "target").join1 options.profile.artifact_dir) td bes {}).failedBinaries
          ≠ [] →
      run_with_options env project_dir options ce =
        .error (.copyFailures
          ((copyLoop env ce ((rb.join1 "target").join1 options.profile.artifact_dir) td bes {}).failedBinaries
            ++ [⟨(match t.fileName with | some x => x | none => "unknown"), skippedMsg⟩])
          (copyLoop env ce ((rb.join1 "target").join1 options.profile.artifact_dir) td bes {}).copiedCount)) := by
  constructor
  · intro env ce st s t hp hf
    exact handlePending_skip env ce st s t hp hf
  · intro env project_dir options ce pt rb cd en bes td dt s t
    intro hres hfind hne htarget hensure hpend hfail
    have hhp := handlePending_skip env ce
      (copyLoop env ce ((rb.join1 "target").join1 options.profile.artifact_dir) td bes {})
      s t hpend hfail
    simp only [run_with_options, hres, hfind, hne, htarget, hensure, Bool.false_eq_true,
      if_false, hhp]
    have hfe : ∀ (l : List FailedCopy) (e : FailedCopy), (l ++ [e]).isEmpty = false := by
      intro l e; cases l <;> rfl
    simp [finalizeRun, hfe]

theorem claim_C1_witness :
    run_with_options demoEnvC1 demoProj {} none =
      .error (.copyFailures
        [⟨"a", copyErrMsg demoExeA (demoHomeBin.join1 "a") "denied"⟩, ⟨"b", skippedMsg⟩] 0) := by
  have h := claim_C1_skip_self_update_on_failures.2 demoEnvC1 demoProj {} none
    .Standard demoProj demoManifestAB [] ["a", "b"] demoHomeBin (some demoHomeBin)
    demoExeB (demoHomeBin.join1 "b")
    rfl rfl rfl rfl rfl (by decide) (by decide)
  exact h.trans (by decide)

/-- C2 as stated is false on the code: with a deferred artifact, no other
failures, and `try_self_update` answering `NotApplicable` (here because the
running executable's path cannot be determined), the caller does add an
entry to the failure list — a "file in use" copy failure — rather than
treating the answer as a silent no-op. -/
theorem claim_C2_counterexample :
    try_self_update baseEnv demoExeA (demoHomeBin.join1 "a") none = .NotApplicable
    ∧ demoStateC2.pending = some (demoExeA, demoHomeBin.join1 "a")
    ∧ demoStateC2.failedBinaries = []
    ∧ (handlePending baseEnv none demoStateC2).1.failedBinaries
        = [⟨"a", fileInUseMsg demoExeA (demoHomeBin.join1 "a")⟩]
    ∧ (handlePending baseEnv none demoStateC2).1.failedBinaries ≠ [] := by
  exact ⟨rfl, rfl, rfl, rfl, by decide⟩

/-- C2 (amended): in `try_self_update`, an undeterminable running-executable
path, or a canonical form differing from the deferred destination's, yields
`NotApplicable`; the caller, on `NotApplicable`, appends a single failure
entry with a "file in use" message to the failure list (it does not treat
the answer as a no-op skip) and does not return early. -/
theorem claim_C2_not_applicable_amended :
    (∀ (env : Env) (s t : FsPath) (ov : Option FsPath),
      currentExeOf env ov = none → try_self_update env s t ov = .NotApplicable)
    ∧ (∀ (env : Env) (s t : FsPath) (ov : Option FsPath) (ce : FsPath),
      currentExeOf env ov = some ce →
      canonicalOf env ce ≠ canonicalOf env t →
      try_self_update env s t ov = .NotApplicable)
    ∧ (∀ (env : Env) (ov : Option FsPath) (st : CopyState) (s t : FsPath),
      st.pending = some (s, t) → st.failedBinaries = [] →
      try_self_update env s t ov = .NotApplicable →
      handlePending env ov st =
        ({ st with failedBinaries := st.failedBinaries ++
            [⟨(match t.fileName with | some x => x | none => "unknown"), fileInUseMsg s t⟩] },
         false)) := by
  refine ⟨?_, ?_, ?_⟩
  · intro env s t ov h
    simp [try_self_update, h]
  · intro env s t ov ce hce hne
    simp [try_self_update, hce, hne]
  · intro env ov st s t hp hf hna
    exact handlePending_notApplicable env ov st s t hp hf hna

theorem claim_C2_witness :
    try_self_update baseEnv demoExeB demoHomeBin none = .NotApplicable
    ∧ handlePending baseEnv none demoStateC2 =
        ({ copiedCount := 0, copiedBinaries := [],
           failedBinaries := [⟨"a", fileInUseMsg demoExeA (demoHomeBin.join1 "a")⟩],
           pending := some (demoExeA, demoHomeBin.join1 "a") }, false) := by
  have h1 := claim_C2_not_applicable_amended.1 baseEnv demoExeB demoHomeBin none rfl
  have h3 := claim_C2_not_applicable_amended.2.2 baseEnv none demoStateC2
    demoExeA (demoHomeBin.join1 "a") rfl rfl rfl
  exact ⟨h1, h3.trans (by decide)⟩

/-- Environment in which the `demo` package is declared but no executable
exists in the artifact directory. -/
def demoEnvNoBuilt : Env :=
  { demoEnvOk with pathExists := fun p => decide (p = demoCargoPath) }

/-- C3: artifact resolution fails with the hard "no packages or bins" error
exactly when the combined candidate set is empty (and that is its only
error); with a non-empty candidate set but no existing platform-named
executable the result is the empty list, which the caller turns into the
distinct "no built executables" error. -/
theorem claim_C3_no_candidates_vs_no_built :
    (∀ (env : Env) (rb : FsPath) (cd : Val) (profile : BuildProfile) (extra : List String),
      (find_built_executables env rb cd profile extra = .error .noPackagesOrBins
        ↔ candidateNames env rb cd extra = [])
      ∧ (∀ e : RunErr, find_built_executables env rb cd profile extra = .error e →
          e = .noPackagesOrBins))
    ∧ (∀ (env : Env) (rb : FsPath) (cd : Val) (profile : BuildProfile) (extra : List String),
      candidateNames env rb cd extra ≠ [] →
      (∀ base ∈ candidateNames env rb cd extra,
        env.pathExists (((rb.join1 "target").join1 profile.artifact_dir).join1
          (exe_filename env.windows base)) = false) →
      find_built_executables env rb cd profile extra = .ok [])
    ∧ (∀ (env : Env) (project_dir : FsPath) (options : RunOptions) (ce : Option FsPath)
        (pt : ProjectType) (rb : FsPath) (cd : Val) (en : List String),
      resolveProject env project_dir options = .ok (pt, rb, cd, en) →
      find_built_executables env rb cd options.profile en = .ok [] →
      run_with_options env project_dir options ce =
        .error (.noBuiltExecutables options.profile pt))
    ∧ (∀ (profile : BuildProfile) (pt : ProjectType),
      RunErr.noBuiltExecutables profile pt ≠ RunErr.noPackagesOrBins) := by
  refine ⟨?_, ?_, ?_, ?_⟩
  · intro env rb cd profile extra
    cases hc : candidateNames env rb cd extra with
    | nil =>
      constructor
      · simp [find_built_executables, hc]
      · intro e he
        simp only [find_built_executables, hc, List.isEmpty_nil, if_true] at he
        exact (Except.error.inj he).symm
    | cons a l =>
      constructor
      · simp [find_built_executables, hc]
      · intro e he
        simp only [find_built_executables, hc] at he
        exact absurd he (by simp)
  · intro env rb cd profile extra hne hall
    cases hc : candidateNames env rb cd extra with
    | nil => exact absurd hc hne
    | cons a l =>
      simp only [find_built_executables, hc, List.isEmpty_cons, Bool.false_eq_true, if_false]
      rw [← hc]
      have : (candidateNames env rb cd extra).filter (fun base =>
          env.pathExists (((rb.join1 "target").join1 profile.artifact_dir).join1
            (exe_filename env.windows base))) = [] := by
        rw [List.filter_eq_nil_iff]
        intro b hb
        simp [hall b hb]
      rw [this]
  · intro env project_dir options ce pt rb cd en hres hfind
    simp [run_with_options, hres, hfind]
  · intro profile pt h
    exact RunErr.noConfusion h

theorem claim_C3_witness :
    find_built_executables demoEnvOk demoProj (Val.table []) .Release [] =
        .error .noPackagesOrBins
    ∧ find_built_executables demoEnvNoBuilt demoProj demoManifest .Release [] = .ok []
    ∧ run_with_options demoEnvNoBuilt demoProj {} none =
        .error (.noBuiltExecutables .Release .Standard) := by
  refine ⟨?_, ?_, ?_⟩
  · exact ((claim_C3_no_candidates_vs_no_built.1 demoEnvOk demoProj (Val.table [])
      .Release []).1).mpr rfl
  · exact claim_C3_no_candidates_vs_no_built.2.1 demoEnvNoBuilt demoProj demoManifest
      .Release [] (by decide) (by decide)
  · exact claim_C3_no_candidates_vs_no_built.2.2.1 demoEnvNoBuilt demoProj {} none
      .Standard demoProj demoManifest [] rfl (by decide)

/-- A spawned self-update leaves the state untouched and can only occur with
an empty failure list (`lib.rs:663-677`). -/
theorem handlePending_spawned_inv (env : Env) (ce : Option FsPath) (st : CopyState) :
    (handlePending env ce st).2 = true →
    (handlePending env ce st).1 = st ∧ st.failedBinaries = [] := by
  unfold handlePending
  rcases hp : st.pending with _ | ⟨s, t⟩
  · intro h; simp at h
  · by_cases hf : st.failedBinaries.isEmpty = true
    · simp only [hf, if_true]
      rcases htry : try_self_update env s t ce with _ | _ | msg
      · intro h; simp at h
      · intro _; exact ⟨rfl, List.isEmpty_iff.mp hf⟩
      · intro h; simp at h
    · simp only [Bool.not_eq_true] at hf
      simp only [hf, Bool.false_eq_true, if_false]
      intro h; simp at h

/-- A successful finalization reports no failures and can only arise from a
state without failures (`lib.rs:807-818`). -/
theorem finalizeRun_ok_inv (options : RunOptions) (td : FsPath) (dt : Option FsPath)
    (st : CopyState) (out : RunOutcome) :
    finalizeRun options td dt st = .ok out →
    out.failedBinaries = [] ∧ st.failedBinaries = [] := by
  unfold finalizeRun
  cases hf : st.failedBinaries with
  | nil =>
    intro h
    have hinj := Except.ok.inj h
    constructor
    · rw [← hinj]
    · rfl
  | cons a l =>
    intro h
    simp at h

/-- C4: the summary status is `ok` iff the failure list is empty, `partial`
iff there are failures and something was copied, `failed` iff there are
failures and nothing was copied; a successful run always reports an empty
failure list (so a non-empty one forces an error), and any error makes the
process exit with code 1. -/
theorem claim_C4_summary_status_and_exit :
    (∀ (failed : List FailedCopy) (copied : Nat),
      (statusOf failed copied = "ok" ↔ failed = [])
      ∧ (statusOf failed copied = "partial" ↔ failed ≠ [] ∧ 0 < copied)
      ∧ (statusOf failed copied = "failed" ↔ failed ≠ [] ∧ copied = 0))
    ∧ (∀ (options : RunOptions) (td : FsPath) (dt : Option FsPath) (st : CopyState),
      (∃ out, finalizeRun options td dt st = .ok out) ↔ st.failedBinaries = [])
    ∧ (∀ (env : Env) (pd : FsPath) (options : RunOptions) (ce : Option FsPath)
        (out : RunOutcome),
      run_with_options env pd options ce = .ok out → out.failedBinaries = [])
    ∧ (∀ (env : Env) (pd : FsPath) (options : RunOptions) (ce : Option FsPath) (e : RunErr),
      run_with_options env pd options ce = .error e →
      do_main_with_options env pd options ce = 1) := by
  refine ⟨?_, ?_, ?_, ?_⟩
  · intro failed copied
    cases failed with
    | nil =>
      have hstat : statusOf [] copied = "ok" := rfl
      rw [hstat]
      refine ⟨⟨fun _ => rfl, fun _ => rfl⟩, ?_, ?_⟩
      · constructor
        · intro h; exact absurd h (by decide)
        · intro h; exact absurd rfl h.1
      · constructor
        · intro h; exact absurd h (by decide)
        · intro h; exact absurd rfl h.1
    | cons a l =>
      have hstat : statusOf (a :: l) copied = if 0 < copied then "partial" else "failed" := rfl
      rw [hstat]
      by_cases hc : 0 < copied
      · rw [if_pos hc]
        refine ⟨?_, ?_, ?_⟩
        · constructor
          · intro h; exact absurd h (by decide)
          · intro h; exact absurd h (List.cons_ne_nil a l)
        · constructor
          · intro _; exact ⟨List.cons_ne_nil a l, hc⟩
          · intro _; rfl
        · constructor
          · intro h; exact absurd h (by decide)
          · intro h; rw [h.2] at hc; exact absurd hc (Nat.lt_irrefl 0)
      · rw [if_neg hc]
        refine ⟨?_, ?_, ?_⟩
        · constructor
          · intro h; exact absurd h (by decide)
          · intro h; exact absurd h (List.cons_ne_nil a l)
        · constructor
          · intro h; exact absurd h (by decide)
          · intro h; exact absurd h.2 hc
        · constructor
          · intro _; refine ⟨List.cons_ne_nil a l, ?_⟩; omega
          · intro _; rfl
  · intro options td dt st
    constructor
    · intro h
      obtain ⟨out, hout⟩ := h
      exact (finalizeRun_ok_inv options td dt st out hout).2
    · intro hf
      rcases hout : finalizeRun options td dt st with e | out
      · exfalso
        simp only [finalizeRun] at hout
        rw [hf] at hout
        simp at hout
      · exact ⟨out, rfl⟩
  · intro env pd options ce out h
    simp only [run_with_options] at h
    rcases hres : resolveProject env pd options with e | ⟨pt, rb, cd, en⟩ <;>
      rw [hres] at h <;> dsimp only at h
    · exact absurd h (by simp)
    rcases hfind : find_built_executables env rb cd options.profile en with e | bes <;>
      rw [hfind] at h <;> dsimp only at h
    · exact absurd h (by simp)
    by_cases hbe : bes.isEmpty = true
    · rw [hbe] at h; simp at h
    rw [Bool.not_eq_true] at hbe
    rw [hbe] at h
    simp only [Bool.false_eq_true, if_false] at h
    rcases htd : resolveTargetDir env pd options.target_override with e | ⟨td, dt⟩ <;>
      rw [htd] at h <;> dsimp only at h
    · exact absurd h (by simp)
    rcases hens : ensureTargetDir env td with e | u <;>
      rw [hens] at h <;> dsimp only at h
    · exact absurd h (by simp)
    by_cases hsp : (handlePending env ce
        (copyLoop env ce ((rb.join1 "target").join1 options.profile.artifact_dir)
          td bes {})).2 = true
    · rw [hsp] at h
      simp only [if_true] at h
      obtain ⟨hst, hemp⟩ := handlePending_spawned_inv env ce
        (copyLoop env ce ((rb.join1 "target").join1 options.profile.artifact_dir) td bes {}) hsp
      have hinj := Except.ok.inj h
      rw [← hinj]
      simpa [hst] using hemp
    · rw [Bool.not_eq_true] at hsp
      rw [hsp] at h
      simp only [Bool.false_eq_true, if_false] at h
      exact (finalizeRun_ok_inv options td dt _ out h).1
  · intro env pd options ce e h
    simp only [do_main_with_options, h]

theorem claim_C4_witness :
    statusOf [] 0 = "ok"
    ∧ (∃ out, finalizeRun demoOptions demoTargetDir none {} = .ok out)
    ∧ demoOutcomeOk.failedBinaries = []
    ∧ do_main_with_options demoEnvC1 demoProj {} none = 1 := by
  refine ⟨?_, ?_, ?_, ?_⟩
  · exact (claim_C4_summary_status_and_exit.1 [] 0).1.mpr rfl
  · exact (claim_C4_summary_status_and_exit.2.1 demoOptions demoTargetDir none {}).mpr rfl
  · exact claim_C4_summary_status_and_exit.2.2.1 demoEnvOk demoProj demoOptions none
      demoOutcomeOk (by decide)
  · exact claim_C4_summary_status_and_exit.2.2.2 demoEnvC1 demoProj {} none
      (.copyFailures [⟨"a", copyErrMsg demoExeA (demoHomeBin.join1 "a") "denied"⟩,
        ⟨"b", skippedMsg⟩] 0) (by decide)

/-- C5: destination precedence is explicit override > environment variable >
platform default — an absolute explicit override is used verbatim and a
relative one is joined onto the project directory (in both cases regardless
of the environment), a set-but-empty override variable fails the resolution,
and on the non-windows family the default is `$HOME/.local/bin`, failing
when `HOME` is absent. -/
theorem claim_C5_destination_precedence :
    (∀ (env : Env) (pd : FsPath) (o : FsPath),
      o.absolute = true →
      resolveTargetDir env pd (some o) =
        .ok (o, match default_target_dir env with | .ok d => some d | .error _ => none))
    ∧ (∀ (env : Env) (pd : FsPath) (o : FsPath),
      o.absolute = false →
      resolveTargetDir env pd (some o) =
        .ok (pd.join o, match default_target_dir env with | .ok d => some d | .error _ => none))
    ∧ (∀ (env : Env) (v : String),
      env.envVarOs TARGET_OVERRIDE_ENV = some v → v ≠ "" →
      ∀ pd : FsPath, resolveTargetDir env pd none =
        .ok (FsPath.ofString v, some (FsPath.ofString v)))
    ∧ (∀ (env : Env),
      env.envVarOs TARGET_OVERRIDE_ENV = some "" →
      ∀ pd : FsPath, resolveTargetDir env pd none = .error .emptyOverrideVariable)
    ∧ (∀ (env : Env) (h : String),
      env.windows = false →
      env.envVarOs TARGET_OVERRIDE_ENV = none →
      env.envVarOs "HOME" = some h →
      ∀ pd : FsPath, resolveTargetDir env pd none =
        .ok ((((FsPath.ofString h).join1 ".local").join1 "bin"),
             some (((FsPath.ofString h).join1 ".local").join1 "bin")))
    ∧ (∀ (env : Env),
      env.windows = false →
      env.envVarOs TARGET_OVERRIDE_ENV = none →
      env.envVarOs "HOME" = none →
      ∀ pd : FsPath, resolveTargetDir env pd none = .error .homeNotSet) := by
  refine ⟨?_, ?_, ?_, ?_, ?_, ?_⟩
  · intro env pd o habs
    simp [resolveTargetDir, habs]
  · intro env pd o habs
    simp [resolveTargetDir, habs]
  · intro env v hv hne pd
    simp [resolveTargetDir, default_target_dir, target_dir_override_from_env, hv, hne]
  · intro env hv pd
    simp [resolveTargetDir, default_target_dir, target_dir_override_from_env, hv]
  · intro env h hw hv hh pd
    simp [resolveTargetDir, default_target_dir, target_dir_override_from_env, hv, hw, hh]
  · intro env hw hv hh pd
    simp [resolveTargetDir, default_target_dir, target_dir_override_from_env, hv, hw, hh]

/-- Environment whose only destination information is the override variable,
set to `/opt/bin`. -/
def demoEnvVar : Env :=
  { baseEnv with envVarOs := fun k => if k = TARGET_OVERRIDE_ENV then some "/opt/bin" else none }

/-- Environment with the override variable set but empty. -/
def demoEnvVarEmpty : Env :=
  { baseEnv with envVarOs := fun k => if k = TARGET_OVERRIDE_ENV then some "" else none }

/-- Environment with only `HOME` set, to `/home/u`. -/
def demoEnvHome : Env :=
  { baseEnv with envVarOs := fun k => if k = "HOME" then some "/home/u" else none }

theorem claim_C5_witness :
    resolveTargetDir baseEnv demoProj (some ⟨true, ["x"]⟩) = .ok (⟨true, ["x"]⟩, none)
    ∧ resolveTargetDir baseEnv demoProj (some ⟨false, ["x"]⟩) =
        .ok (⟨true, ["proj", "x"]⟩, none)
    ∧ resolveTargetDir demoEnvVar demoProj none = .ok (demoTargetDir, some demoTargetDir)
    ∧ resolveTargetDir demoEnvVarEmpty demoProj none = .error .emptyOverrideVariable
    ∧ resolveTargetDir demoEnvHome demoProj none = .ok (demoHomeBin, some demoHomeBin)
    ∧ resolveTargetDir baseEnv demoProj none = .error .homeNotSet := by
  refine ⟨?_, ?_, ?_, ?_, ?_, ?_⟩
  · exact (claim_C5_destination_precedence.1 baseEnv demoProj ⟨true, ["x"]⟩ rfl).trans
      (by decide)
  · exact (claim_C5_destination_precedence.2.1 baseEnv demoProj ⟨false, ["x"]⟩ rfl).trans
      (by decide)
  · exact (claim_C5_destination_precedence.2.2.1 demoEnvVar "/opt/bin" rfl
      (by decide) demoProj).trans (by decide)
  · exact claim_C5_destination_precedence.2.2.2.1 demoEnvVarEmpty rfl demoProj
  · exact (claim_C5_destination_precedence.2.2.2.2.1 demoEnvHome "/home/u" rfl rfl rfl
      demoProj).trans (by decide)
  · exact claim_C5_destination_precedence.2.2.2.2.2 baseEnv rfl rfl rfl demoProj

/-- C6: after destination resolution, a missing target path is created with
all parents (a creation failure aborts the run), and an existing
non-directory target aborts with the "not a directory" error — under any
options, so both with an explicit override and with a computed default
destination. -/
theorem claim_C6_destination_dir_checks :
    (∀ (env : Env) (d : FsPath),
      env.pathExists d = false →
      (env.createDirAll d = true → ensureTargetDir env d = .ok ())
      ∧ (env.createDirAll d = false →
          ensureTargetDir env d = .error (.destinationCreateFailed d)))
    ∧ (∀ (env : Env) (d : FsPath),
      env.pathExists d = true → env.isDir d = false →
      ensureTargetDir env d = .error (.destinationNotADirectory d))
    ∧ (∀ (env : Env) (pd : FsPath) (options : RunOptions) (ce : Option FsPath)
        (pt : ProjectType) (rb : FsPath) (cd : Val) (en : List String)
        (bes : List String) (td : FsPath) (dt : Option FsPath),
      resolveProject env pd options = .ok (pt, rb, cd, en) →
      find_built_executables env rb cd options.profile en = .ok bes →
      bes.isEmpty = false →
      resolveTargetDir env pd options.target_override = .ok (td, dt) →
      env.pathExists td = true → env.isDir td = false →
      run_with_options env pd options ce = .error (.destinationNotADirectory td)) := by
  refine ⟨?_, ?_, ?_⟩
  · intro env d hex
    constructor
    · intro hcr; simp [ensureTargetDir, hex, hcr]
    · intro hcr; simp [ensureTargetDir, hex, hcr]
  · intro env d hex hdir
    simp [ensureTargetDir, hex, hdir]
  · intro env pd options ce pt rb cd en bes td dt hres hfind hbe htd hex hdir
    have hens : ensureTargetDir env td = .error (.destinationNotADirectory td) := by
      simp [ensureTargetDir, hex, hdir]
    simp [run_with_options, hres, hfind, hbe, htd, hens]

/-- The success environment with the destination pre-empted by a stray
non-directory file. -/
def demoEnvNotDir : Env := { demoEnvOk with isDir := fun _ => false }

/-- As `demoEnvNotDir`, but the destination comes from the override variable
rather than an explicit `--target`. -/
def demoEnvNotDirDefault : Env :=
  { demoEnvOk with
    isDir := fun _ => false,
    envVarOs := fun k => if k = TARGET_OVERRIDE_ENV then some "/opt/bin" else none }

theorem claim_C6_witness :
    ensureTargetDir baseEnv demoTargetDir = .error (.destinationCreateFailed demoTargetDir)
    ∧ run_with_options demoEnvNotDir demoProj demoOptions none =
        .error (.destinationNotADirectory demoTargetDir)
    ∧ run_with_options demoEnvNotDirDefault demoProj {} none =
        .error (.destinationNotADirectory demoTargetDir) := by
  refine ⟨?_, ?_, ?_⟩
  · exact (claim_C6_destination_dir_checks.1 baseEnv demoTargetDir rfl).2 rfl
  · exact claim_C6_destination_dir_checks.2.2 demoEnvNotDir demoProj demoOptions none
      .Standard demoProj demoManifest [] ["demo"] demoTargetDir none
      rfl rfl rfl (by decide) rfl rfl
  · exact claim_C6_destination_dir_checks.2.2 demoEnvNotDirDefault demoProj {} none
      .Standard demoProj demoManifest [] ["demo"] demoTargetDir (some demoTargetDir)
      rfl rfl rfl (by decide) rfl rfl

/-- The per-entry bin names as the specification words them: the declared
name if present, otherwise the filename-stem of the declared source path if
present, otherwise no name for that entry. -/
def specBinNames (m : Val) : List String :=
  match (m.get "bin").bind Val.as_array with
  | none => []
  | some bins =>
    bins.filterMap fun b =>
      ((b.get "name").bind Val.as_str).orElse
        (fun _ => ((b.get "path").bind Val.as_str).bind fileStemOfString)

/-- The candidate-name extraction as the specification words it: the bin
entries' names in order, then the package name appended if and only if it is
present and not already in the list. -/
def specCandidateNames (m : Val) : List String :=
  match packageName m with
  | some name =>
    if name ∈ specBinNames m then specBinNames m else specBinNames m ++ [name]
  | none => specBinNames m

theorem binEntryName_eq_spec (b : Val) :
    binEntryName b =
      ((b.get "name").bind Val.as_str).orElse
        (fun _ => ((b.get "path").bind Val.as_str).bind fileStemOfString) := by
  rcases hn : (b.get "name").bind Val.as_str with _ | n
  · rcases hp : (b.get "path").bind Val.as_str with _ | p <;>
      simp [binEntryName, hn, hp, Option.orElse]
  · simp [binEntryName, hn, Option.orElse]

theorem binDerivedNames_eq_spec (m : Val) : binDerivedNames m = specBinNames m := by
  unfold binDerivedNames specBinNames
  cases (m.get "bin").bind Val.as_array with
  | none => rfl
  | some bins =>
    have hfe : binEntryName = fun b =>
        ((b.get "name").bind Val.as_str).orElse
          (fun _ => ((b.get "path").bind Val.as_str).bind fileStemOfString) :=
      funext binEntryName_eq_spec
    rw [hfe]

/-- A manifest in which the name `x` is declared by two bin entries and is
also the package name. -/
def dupManifest : Val :=
  .table [("package", .table [("name", .str "x")]),
          ("bin", .arr [.table [("name", .str "x")], .table [("name", .str "x")]])]

/-- C7 as stated is false on the code: in a manifest whose package name `x`
also appears as a bin name, the extraction can still return `x` twice — the
append-time deduplication only guards the package-name append, so `x`
declared by two bin entries and as the package name occurs twice, not once. -/
theorem claim_C7_counterexample :
    packageName dupManifest = some "x"
    ∧ "x" ∈ binDerivedNames dupManifest
    ∧ (manifest_bin_names dupManifest).count "x" = 2
    ∧ ¬ (manifest_bin_names dupManifest).count "x" = 1 := by
  refine ⟨rfl, by decide, rfl, by decide⟩

/-- C7 (amended): the extraction returns, in order, for each explicit bin
entry its declared name, else the filename-stem of its declared source path,
else nothing, and then the package name appended if and only if it is
present and not already in the list — so the append never introduces a
duplicate: a name occurring at most once among the bin-derived names and
also as the package name occurs exactly once (names duplicated among the bin
entries themselves may still repeat). -/
theorem claim_C7_bin_name_extraction_amended :
    (∀ m : Val, manifest_bin_names m = specCandidateNames m)
    ∧ (∀ (m : Val) (n : String), packageName m = some n →
        (binDerivedNames m).count n ≤ 1 →
        (manifest_bin_names m).count n = 1) := by
  constructor
  · intro m
    simp only [manifest_bin_names, specCandidateNames]
    cases hpkg : packageName m with
    | none => exact binDerivedNames_eq_spec m
    | some name =>
      rw [binDerivedNames_eq_spec]
      dsimp only
      by_cases hmem : name ∈ specBinNames m
      · rw [if_pos hmem, if_pos]
        simp only [List.any_eq_true, beq_iff_eq]
        exact ⟨name, hmem, rfl⟩
      · rw [if_neg hmem, if_neg]
        simp only [List.any_eq_true, beq_iff_eq, not_exists]
        intro x hx
        exact hmem (hx.2 ▸ hx.1)
  · intro m n hpkg hcount
    simp only [manifest_bin_names, hpkg]
    by_cases hany : (binDerivedNames m).any (fun existing => existing == n) = true
    · rw [if_pos hany]
      have hmem : n ∈ binDerivedNames m := by
        simp only [List.any_eq_true, beq_iff_eq] at hany
        obtain ⟨x, hx, hxe⟩ := hany
        rw [← hxe]; exact hx
      have hpos : 0 < (binDerivedNames m).count n := List.count_pos_iff.mpr hmem
      omega
    · rw [if_neg hany]
      have hnot : n ∉ binDerivedNames m := by
        intro hmem
        exact hany (by simp only [List.any_eq_true, beq_iff_eq]; exact ⟨n, hmem, rfl⟩)
      rw [List.count_append]
      rw [List.count_eq_zero.mpr hnot]
      simp

theorem claim_C7_witness :
    (manifest_bin_names demoManifest).count "demo" = 1 ∧ packageName demoManifest = some "demo" := by
  exact ⟨claim_C7_bin_name_extraction_amended.2 demoManifest "demo" rfl (by decide), rfl⟩

theorem retryCopyLoop_bounded (copyAt : Nat → Bool) :
    ∀ (attempts start : Nat), (retryCopyLoop copyAt attempts start).2 ≤ attempts := by
  intro attempts
  induction attempts with
  | zero => intro start; exact Nat.le_refl 0
  | succ n ih =>
    intro start
    by_cases h : copyAt start = true
    · simp only [retryCopyLoop, h, if_true]
      omega
    · rw [Bool.not_eq_true] at h
      simp only [retryCopyLoop, h, Bool.false_eq_true, if_false]
      have := ih (start + 1)
      omega

theorem retryCopyLoop_succeeds_iff (copyAt : Nat → Bool) :
    ∀ (attempts start : Nat),
    (retryCopyLoop copyAt attempts start).1 = true ↔
      ∃ i, i < attempts ∧ copyAt (start + i) = true := by
  intro attempts
  induction attempts with
  | zero =>
    intro start
    simp [retryCopyLoop]
  | succ n ih =>
    intro start
    by_cases h : copyAt start = true
    · simp only [retryCopyLoop, h, if_true]
      constructor
      · intro _
        exact ⟨0, Nat.succ_pos n, by simpa using h⟩
      · intro _; trivial
    · rw [Bool.not_eq_true] at h
      simp only [retryCopyLoop, h, Bool.false_eq_true, if_false]
      rw [ih (start + 1)]
      constructor
      · intro hx
        obtain ⟨i, hi, hc⟩ := hx
        refine ⟨i + 1, by omega, ?_⟩
        have : start + (i + 1) = start + 1 + i := by omega
        rw [this]
        exact hc
      · intro hx
        obtain ⟨i, hi, hc⟩ := hx
        cases i with
        | zero =>
          rw [Nat.add_zero] at hc
          rw [hc] at h
          cases h
        | succ j =>
          refine ⟨j, by omega, ?_⟩
          have : start + 1 + j = start + (j + 1) := by omega
          rw [this]
          exact hc

/-- C9: the private finish-update instruction `--finish-update <source>
<dest>` is recognized by the argument parser as the dedicated command
carrying both paths; the helper (modelled from the spec, its executable not
being among the sources) retry-copies the real source to the real
destination making at most the fixed number of attempts, succeeds exactly
when some attempt within the bound succeeds, and reports the exhaustion of
all retries as a terminal failure through its own exit status 1. -/
theorem claim_C9_finish_update_helper :
    (∀ s d : String, parse_args ["--finish-update", s, d] =
        .ok (.FinishUpdate (FsPath.ofString s) (FsPath.ofString d)))
    ∧ (∀ (copyAt : Nat → Bool) (attempts start : Nat),
        (retryCopyLoop copyAt attempts start).2 ≤ attempts)
    ∧ (∀ (copyAt : Nat → Bool) (attempts start : Nat),
        (retryCopyLoop copyAt attempts start).1 = true ↔
          ∃ i, i < attempts ∧ copyAt (start + i) = true)
    ∧ (∀ (source dest : FsPath) (copyTry : FsPath → FsPath → Nat → Bool),
        (finishUpdateHelper source dest copyTry = 0 ↔
          ∃ i, i < finishUpdateAttempts ∧ copyTry source dest i = true)
        ∧ (finishUpdateHelper source dest copyTry = 1 ↔
          ∀ i, i < finishUpdateAttempts → copyTry source dest i = false)) := by
  refine ⟨?_, retryCopyLoop_bounded, retryCopyLoop_succeeds_iff, ?_⟩
  · intro s d
    rfl
  · intro source dest copyTry
    have hiff := retryCopyLoop_succeeds_iff (copyTry source dest) finishUpdateAttempts 0
    simp only [Nat.zero_add] at hiff
    constructor
    · constructor
      · intro h
        simp only [finishUpdateHelper] at h
        by_cases hl : (retryCopyLoop (copyTry source dest) finishUpdateAttempts 0).1 = true
        · exact hiff.mp hl
        · rw [Bool.not_eq_true] at hl
          rw [hl] at h
          simp at h
      · intro h
        simp only [finishUpdateHelper]
        rw [if_pos (hiff.mpr h)]
    · constructor
      · intro h i hi
        simp only [finishUpdateHelper] at h
        by_cases hl : (retryCopyLoop (copyTry source dest) finishUpdateAttempts 0).1 = true
        · rw [if_pos hl] at h
          cases h
        · rw [Bool.not_eq_true] at hl
          have hnone := hiff.not.mp (by rw [hl]; simp)
          by_cases hc : copyTry source dest i = true
          · exact absurd ⟨i, hi, hc⟩ hnone
          · rw [Bool.not_eq_true] at hc
            exact hc
      · intro h
        simp only [finishUpdateHelper]
        rw [if_neg]
        rw [hiff]
        intro hx
        obtain ⟨i, hi, hc⟩ := hx
        rw [h i hi] at hc
        cases hc
